import Mathlib

/-!
Verification development for the Game of Life simulation engine in
`src/components/GameOfLife.jsx`.  The file embeds the engine functions
(`computeNextGeneration`, `mutateGrid`, `createInitialGrid`,
`resetSimulation`, and the dynamic-speed computation of `runSimulation`)
as executable Lean definitions over row-major lists of booleans, and
proves the spec properties about them.
-/

namespace GoL

/-- A grid is a row-major rectangular array of boolean cells, accessed as
`grid[y][x]` in the source. -/
abbrev Grid := List (List Bool)

/-- Grid width, from the component state `gridSize = { width: 60, height: 40 }`. -/
def width : Nat := 60

/-- Grid height, from the component state `gridSize = { width: 60, height: 40 }`. -/
def height : Nat := 40

/-- JS `Array.prototype.map((v, i) => ...)` with an explicit start index. -/
def mapIdxFrom (f : Nat → α → β) : Nat → List α → List β
  | _, [] => []
  | i, a :: as => f i a :: mapIdxFrom f (i + 1) as

/-- Index-aware map starting at 0, as used by
`grid.map((row, y) => row.map((cell, x) => ...))`. -/
def mapIdx (f : Nat → α → β) (l : List α) : List β := mapIdxFrom f 0 l

/-- Cell lookup `grid[newY][newX]` at integer coordinates; only ever used
under the in-bounds test, exactly as in the source. -/
def getCellI (g : Grid) (y x : Int) : Bool := (g.getD y.toNat []).getD x.toNat false

/-- Cell lookup `grid[y][x]` at natural-number coordinates. -/
def getCellN (g : Grid) (y x : Nat) : Bool := (g.getD y []).getD x false

/-- The Moore neighborhood offsets `(dy, dx)` in the order of the JS double
loop `for (dy = -1..1) for (dx = -1..1)` with `(0, 0)` skipped. -/
def neighborOffsets : List (Int × Int) :=
  [(-1, -1), (-1, 0), (-1, 1), (0, -1), (0, 1), (1, -1), (1, 0), (1, 1)]

/-- Bounds test of `computeNextGeneration`:
`newY >= 0 && newY < gridSize.height && newX >= 0 && newX < gridSize.width`. -/
def inBounds (newY newX : Int) : Bool :=
  decide (0 ≤ newY ∧ newY < (height : Int) ∧ 0 ≤ newX ∧ newX < (width : Int))

/-- The `liveNeighbors` accumulation of `computeNextGeneration`: fold over the
eight offsets, adding `grid[newY][newX] ? 1 : 0` when the neighbor is in
bounds and nothing otherwise. -/
def countLiveNeighbors (g : Grid) (y x : Nat) : Nat :=
  neighborOffsets.foldl
    (fun acc d =>
      if inBounds ((y : Int) + d.1) ((x : Int) + d.2) then
        acc + (if getCellI g ((y : Int) + d.1) ((x : Int) + d.2) then 1 else 0)
      else acc)
    0

/-- The per-cell rule of `computeNextGeneration` (standard Conway rules):
an alive cell survives iff `liveNeighbors === 2 || liveNeighbors === 3`,
a dead cell is born iff `liveNeighbors === 3`. -/
def stepCell (g : Grid) (y x : Nat) (cell : Bool) : Bool :=
  let liveNeighbors := countLiveNeighbors g y x
  if cell then liveNeighbors == 2 || liveNeighbors == 3
  else liveNeighbors == 3

/-- `computeNextGeneration`: map the rule over every cell of the grid,
reading only the old grid. -/
def computeNextGeneration (g : Grid) : Grid :=
  mapIdx (fun y row => mapIdx (fun x cell => stepCell g y x cell) row) g

/-- Stated from the spec wording: the number of in-bounds Moore neighbors of
`(y, x)` that are alive; out-of-bounds neighbors contribute zero. -/
def mooreLiveCount (g : Grid) (y x : Nat) : Nat :=
  neighborOffsets.countP
    (fun d =>
      inBounds ((y : Int) + d.1) ((x : Int) + d.2) &&
        getCellI g ((y : Int) + d.1) ((x : Int) + d.2))

/-- A grid is well formed when it has `height` rows each of length `width`,
the shape every grid of the component has. -/
def wellFormed (g : Grid) : Bool :=
  g.length == height && g.all (fun row => row.length == width)

/-- Every cell of the grid is dead. -/
def allDead (g : Grid) : Bool :=
  g.all (fun row => row.all (fun cell => cell == false))

/-- Cell-wise inversion of a grid. -/
def invertGrid (g : Grid) : Grid := g.map (fun row => row.map (fun cell => !cell))

/-- `mutateGrid` viewed as parameterized by the flip probability `p`: cell
`(y, x)` is inverted exactly when the random draw for it is below `p`,
mirroring `Math.random() < 0.1 ? !cell : cell` with the draws made explicit. -/
def mutateGridP (p : ℚ) (rand : Nat → Nat → ℚ) (g : Grid) : Grid :=
  mapIdx (fun y row => mapIdx (fun x cell => if rand y x < p then !cell else cell) row) g

/-- `mutateGrid` from the source, with its fixed flip probability `0.1`. -/
def mutateGrid (rand : Nat → Nat → ℚ) (g : Grid) : Grid :=
  mutateGridP ((1 : ℚ) / 10) rand g

/-- The initial all-dead grid built by `createInitialGrid`:
`Array(height).fill().map(() => Array(width).fill(false))`. -/
def emptyGrid : Grid := List.replicate height (List.replicate width false)

/-- The write `rows[y][x] = true` of `createInitialGrid`. -/
def setCell (g : Grid) (y x : Nat) : Grid := g.set y ((g.getD y []).set x true)

/-- The two literal coordinate patterns of `createInitialGrid`, as `[x, y]`
pairs exactly as they appear in the source. -/
def literalPatterns : List (List (Int × Int)) :=
  [[(1, 25), (2, 25), (1, 26), (2, 26)],
   [(10, 10), (11, 11), (12, 11), (12, 10), (12, 9)]]

/-- Bounds test of `createInitialGrid` on an `[x, y]` coordinate:
`x >= 0 && x < gridSize.width && y >= 0 && y < gridSize.height`. -/
def inBoundsXY (c : Int × Int) : Bool :=
  decide (0 ≤ c.1 ∧ c.1 < (width : Int) ∧ 0 ≤ c.2 ∧ c.2 < (height : Int))

/-- One coordinate placement of `createInitialGrid`: set the cell when the
coordinate is in bounds, silently discard it otherwise. -/
def placeCoord (rows : Grid) (c : Int × Int) : Grid :=
  if inBoundsXY c then setCell rows c.2.toNat c.1.toNat else rows

/-- Placement of one whole pattern (the inner `forEach`). -/
def placePattern (rows : Grid) (pattern : List (Int × Int)) : Grid :=
  pattern.foldl placeCoord rows

/-- The seed operation as specified: start from the all-dead grid and place
the literal patterns followed by the random-noise coordinates, treated as one
additional pattern.  The source instead spreads the 100 random coordinate
pairs as individual top-level patterns, which makes its inner destructuring
throw; that faithful behavior is modelled separately by
`createInitialGridJS` below. -/
def createInitialGrid (randCoords : List (Int × Int)) : Grid :=
  (literalPatterns ++ [randCoords]).foldl placePattern emptyGrid

/-- A fragment of JS runtime values, enough to model the `patterns` array of
`createInitialGrid` dynamically: numbers and arrays. -/
inductive JVal where
  | num (n : Int)
  | arr (elems : List JVal)

/-- The `patterns` array exactly as the source builds it: the two literal
patterns, then each random `[x, y]` pair spread as its own top-level
element. -/
def patternsJS (randCoords : List (Int × Int)) : List JVal :=
  [JVal.arr ((literalPatterns.getD 0 []).map (fun c => JVal.arr [JVal.num c.1, JVal.num c.2])),
   JVal.arr ((literalPatterns.getD 1 []).map (fun c => JVal.arr [JVal.num c.1, JVal.num c.2]))] ++
    randCoords.map (fun c => JVal.arr [JVal.num c.1, JVal.num c.2])

/-- One application of the inner callback `([x, y]) => { ... }`: array
destructuring of a number throws a TypeError in JS, since numbers are not
iterable; destructuring an array takes its first two elements. -/
def placeCoordJS (rows : Grid) (e : JVal) : Except String Grid :=
  match e with
  | JVal.num _ => Except.error "TypeError: number is not iterable"
  | JVal.arr l =>
    match l.getD 0 (JVal.num 0), l.getD 1 (JVal.num 0) with
    | JVal.num x, JVal.num y =>
      Except.ok (placeCoord rows (x, y))
    | _, _ => Except.error "TypeError: comparison on non-number"

/-- The outer callback `pattern => pattern.forEach(...)`: calling `forEach`
on a non-array would itself throw. -/
def forEachPlaceJS (rows : Grid) (pv : JVal) : Except String Grid :=
  match pv with
  | JVal.num _ => Except.error "TypeError: pattern.forEach is not a function"
  | JVal.arr elems => elems.foldlM placeCoordJS rows

/-- `createInitialGrid` with the dynamic shape of its `patterns` array
modelled faithfully: iterate the outer `forEach` over the spread list,
propagating the first thrown TypeError. -/
def createInitialGridJS (randCoords : List (Int × Int)) : Except String Grid :=
  (patternsJS randCoords).foldlM forEachPlaceJS emptyGrid

/-- The engine state owned by the component: grid, generation counter and
run flag. -/
structure EngineState where
  grid : Grid
  generation : Nat
  isRunning : Bool

/-- `resetSimulation` as specified: stop the run, zero the generation and
re-seed the grid with fresh random coordinates. -/
def resetSimulation (randCoords : List (Int × Int)) (s : EngineState) : EngineState :=
  { s with isRunning := false, generation := 0, grid := createInitialGrid randCoords }

/-- `resetSimulation` with the faithful seed: `setIsRunning(false)`,
`clearInterval` and `setGeneration(0)` take effect, then the
`createInitialGrid()` call either produces the new grid or throws, in which
case the grid keeps its previous value and the error escapes the handler. -/
def resetSimulationJS (randCoords : List (Int × Int)) (s : EngineState) :
    EngineState × Option String :=
  let stopped : EngineState := { s with isRunning := false, generation := 0 }
  match createInitialGridJS randCoords with
  | Except.ok g => ({ stopped with grid := g }, none)
  | Except.error e => (stopped, some e)

/-- `nextGrid.flat().filter(cell => cell).length` from `runSimulation`. -/
def aliveCells (g : Grid) : Nat := (g.flatten.filter (fun cell => cell)).length

/-- The dynamic tick interval of `runSimulation`:
`Math.max(50, 200 - (aliveCells / (width * height) * 150))`. -/
def newSpeed (g : Grid) : ℚ :=
  max 50 (200 - ((aliveCells g : ℚ) / ((width : ℚ) * (height : ℚ)) * 150))

/-- Grid built from a cell predicate, used to describe grids whose live
cells are exactly a given pattern. -/
def buildGrid (f : Nat → Nat → Bool) : Grid :=
  (List.range height).map (fun y => (List.range width).map (fun x => f y x))

/-- Membership of the absolute cell `(y, x)` in the pattern `P` of relative
`(row, column)` offsets anchored at `(r, c)`. -/
def patternMem (P : List (Nat × Nat)) (r c y x : Nat) : Bool :=
  P.any (fun p => y == r + p.1 && x == c + p.2)

/-- The 40×60 grid whose live cells are exactly the pattern `P` anchored at
`(r, c)`. -/
def patternGrid (P : List (Nat × Nat)) (r c : Nat) : Grid :=
  buildGrid (fun y x => patternMem P r c y x)

/-- Pattern membership in anchor-relative integer coordinates. -/
def relMem (P : List (Nat × Nat)) (a b : Int) : Bool :=
  P.any (fun p => a == (p.1 : Int) && b == (p.2 : Int))

/-- Live-neighbor count of a relative cell against a pattern, mirroring the
fold of `countLiveNeighbors`. -/
def relCount (P : List (Nat × Nat)) (a b : Int) : Nat :=
  neighborOffsets.foldl
    (fun acc d => acc + (if relMem P (a + d.1) (b + d.2) then 1 else 0)) 0

/-- Decidable check that one step maps pattern `P` to pattern `Q` on the
window of relative coordinates `[-1, M+1] × [-1, M+1]`. -/
def ruleOK (P Q : List (Nat × Nat)) (M : Nat) : Bool :=
  (List.range (M + 3)).all fun u =>
    (List.range (M + 3)).all fun v =>
      (if relMem P ((u : Int) - 1) ((v : Int) - 1) then
        relCount P ((u : Int) - 1) ((v : Int) - 1) == 2 ||
          relCount P ((u : Int) - 1) ((v : Int) - 1) == 3
      else relCount P ((u : Int) - 1) ((v : Int) - 1) == 3) ==
        relMem Q ((u : Int) - 1) ((v : Int) - 1)

/-- The 2×2 block still life, in relative coordinates. -/
def blockPattern : List (Nat × Nat) := [(0, 0), (0, 1), (1, 0), (1, 1)]

/-- The 5-cell glider of the seed, in `(row, column)` offsets relative to its
top-left bounding corner: the absolute seed cells are
`(y, x) = (9, 12), (10, 10), (10, 12), (11, 11), (11, 12)` anchored at
`(9, 10)`. -/
def gliderPattern : List (Nat × Nat) := [(0, 2), (1, 0), (1, 2), (2, 1), (2, 2)]

/-- Glider phase after one step. -/
def gliderPhase1 : List (Nat × Nat) := [(0, 1), (1, 2), (1, 3), (2, 1), (2, 2)]

/-- Glider phase after two steps. -/
def gliderPhase2 : List (Nat × Nat) := [(0, 2), (1, 3), (2, 1), (2, 2), (2, 3)]

/-- Glider phase after three steps. -/
def gliderPhase3 : List (Nat × Nat) := [(1, 1), (1, 3), (2, 2), (2, 3), (3, 2)]

/-- Glider phase after four steps: the original glider translated one cell
down and one cell right. -/
def gliderPhase4 : List (Nat × Nat) := [(1, 3), (2, 1), (2, 3), (3, 2), (3, 3)]

/-! ### Helper lemmas about the list combinators of the embedding -/

theorem length_mapIdxFrom (f : Nat → α → β) :
    ∀ (i : Nat) (l : List α), (mapIdxFrom f i l).length = l.length
  | _, [] => rfl
  | i, _ :: as => by simp [mapIdxFrom, length_mapIdxFrom f (i + 1) as]

theorem getD_mapIdxFrom (f : Nat → α → β) (d : β) :
    ∀ (i j : Nat) (l : List α) (h : j < l.length),
      (mapIdxFrom f i l).getD j d = f (i + j) (l.get ⟨j, h⟩)
  | i, 0, _ :: _, _ => by simp [mapIdxFrom]
  | i, j + 1, _ :: as, h => by
    have hj : j < as.length := by simpa using h
    simp only [mapIdxFrom, List.getD_cons_succ, List.get_cons_succ]
    rw [getD_mapIdxFrom f d (i + 1) j as hj]
    congr 1
    omega

theorem mem_mapIdxFrom {f : Nat → α → β} :
    ∀ {i : Nat} {l : List α} {b : β}, b ∈ mapIdxFrom f i l → ∃ j a, a ∈ l ∧ b = f j a := by
  intro i l
  induction l generalizing i with
  | nil => intro b hb; simp [mapIdxFrom] at hb
  | cons a as ih =>
    intro b hb
    rcases (by simpa [mapIdxFrom] using hb : b = f i a ∨ b ∈ mapIdxFrom f (i + 1) as) with h | h
    · exact ⟨i, a, by simp, h⟩
    · obtain ⟨j, a', ha', hb'⟩ := ih h
      exact ⟨j, a', by simp [ha'], hb'⟩

theorem mapIdxFrom_congr {f g : Nat → α → β} (h : ∀ i a, f i a = g i a) :
    ∀ (i : Nat) (l : List α), mapIdxFrom f i l = mapIdxFrom g i l
  | _, [] => rfl
  | i, a :: as => by simp [mapIdxFrom, h i a, mapIdxFrom_congr h (i + 1) as]

theorem mapIdxFrom_constmap (h : α → β) :
    ∀ (i : Nat) (l : List α), mapIdxFrom (fun _ a => h a) i l = l.map h
  | _, [] => rfl
  | i, a :: as => by simp [mapIdxFrom, mapIdxFrom_constmap h (i + 1) as]

theorem mapIdxFrom_id : ∀ (i : Nat) (l : List α), mapIdxFrom (fun _ a => a) i l = l
  | _, [] => rfl
  | i, a :: as => by simp [mapIdxFrom, mapIdxFrom_id (i + 1) as]

theorem foldl_congr_mem {l : List α} {f g : β → α → β}
    (h : ∀ b a, a ∈ l → f b a = g b a) : ∀ b, l.foldl f b = l.foldl g b := by
  induction l with
  | nil => intro b; rfl
  | cons a as ih =>
    intro b
    simp only [List.foldl_cons]
    rw [h b a (by simp)]
    exact ih (fun b' a' ha' => h b' a' (by simp [ha'])) _

theorem foldl_count_eq_countP (P Q : α → Bool) :
    ∀ (l : List α) (n : Nat),
      l.foldl (fun acc d => if P d then acc + (if Q d then 1 else 0) else acc) n =
        n + l.countP (fun d => P d && Q d)
  | [], n => by simp
  | a :: as, n => by
    simp only [List.foldl_cons, List.countP_cons]
    rw [foldl_count_eq_countP P Q as]
    by_cases hP : P a <;> by_cases hQ : Q a <;> (simp [hP, hQ]; try omega)

theorem foldl_add_ind_zero {cond : α → Bool} {l : List α}
    (h : ∀ d ∈ l, cond d = false) :
    ∀ n, l.foldl (fun acc d => acc + (if cond d then 1 else 0)) n = n := by
  induction l with
  | nil => intro n; rfl
  | cons a as ih =>
    intro n
    simp only [List.foldl_cons, h a (by simp)]
    simpa using ih (fun d hd => h d (by simp [hd])) n

theorem getD_in {l : List α} {i : Nat} (d : α) (h : i < l.length) :
    l.getD i d = l.get ⟨i, h⟩ := by
  simp [List.getD_eq_getElem?_getD, List.getElem?_eq_getElem h]

theorem getD_out {l : List α} {i : Nat} (d : α) (h : l.length ≤ i) :
    l.getD i d = d := by
  simp [List.getD_eq_getElem?_getD, List.getElem?_eq_none h]

/-! ### Basic grid lemmas -/

theorem grid_ext (a b : Grid) (hlen : a.length = b.length)
    (hrow : ∀ y, y < a.length → (a.getD y []).length = (b.getD y []).length)
    (hcell : ∀ y x, y < a.length → x < (a.getD y []).length →
      getCellN a y x = getCellN b y x) : a = b := by
  apply List.ext_getElem hlen
  intro y hy hy'
  apply List.ext_getElem
  · have := hrow y hy
    rwa [getD_in [] hy, getD_in [] hy'] at this
  · intro x hx hx'
    have hxa : x < (a.getD y []).length := by rwa [getD_in [] hy]
    have := hcell y x hy hxa
    unfold getCellN at this
    rw [getD_in [] hy, getD_in [] hy'] at this
    rw [getD_in false (by simpa using hx), getD_in false (by simpa using hx')] at this
    simpa using this

theorem length_computeNext (g : Grid) :
    (computeNextGeneration g).length = g.length :=
  length_mapIdxFrom _ 0 g

theorem row_computeNext (g : Grid) (y : Nat) (hy : y < g.length) :
    (computeNextGeneration g).getD y [] =
      mapIdx (fun x cell => stepCell g y x cell) (g.getD y []) := by
  unfold computeNextGeneration mapIdx
  rw [getD_mapIdxFrom _ [] 0 y g hy]
  rw [getD_in [] hy]
  simp only [Nat.zero_add]

theorem rowlen_computeNext (g : Grid) (y : Nat) (hy : y < g.length) :
    ((computeNextGeneration g).getD y []).length = (g.getD y []).length := by
  rw [row_computeNext g y hy]
  exact length_mapIdxFrom _ 0 _

theorem getCell_step (g : Grid) (y x : Nat)
    (hy : y < g.length) (hx : x < (g.getD y []).length) :
    getCellN (computeNextGeneration g) y x = stepCell g y x (getCellN g y x) := by
  unfold getCellN
  rw [row_computeNext g y hy]
  unfold mapIdx
  rw [getD_mapIdxFrom _ false 0 x _ hx]
  rw [getD_in false hx]
  simp only [Nat.zero_add]

theorem countLiveNeighbors_eq_moore (g : Grid) (y x : Nat) :
    countLiveNeighbors g y x = mooreLiveCount g y x := by
  unfold countLiveNeighbors mooreLiveCount
  rw [foldl_count_eq_countP]
  simp

theorem wellFormed_iff (g : Grid) :
    wellFormed g = true ↔ g.length = height ∧ ∀ row ∈ g, row.length = width := by
  simp [wellFormed, List.all_eq_true]

/-! ### Lemmas about grids built from a cell predicate -/

theorem length_buildGrid (f : Nat → Nat → Bool) : (buildGrid f).length = height := by
  simp [buildGrid]

theorem row_buildGrid (f : Nat → Nat → Bool) (y : Nat) (hy : y < height) :
    (buildGrid f).getD y [] = (List.range width).map (fun x => f y x) := by
  unfold buildGrid
  rw [getD_in [] (by simpa [buildGrid] using hy)]
  simp [hy]

theorem rowlen_buildGrid (f : Nat → Nat → Bool) (y : Nat) (hy : y < height) :
    ((buildGrid f).getD y []).length = width := by
  rw [row_buildGrid f y hy]
  simp

theorem getCell_buildGrid (f : Nat → Nat → Bool) (y x : Nat) :
    getCellN (buildGrid f) y x = if y < height ∧ x < width then f y x else false := by
  unfold getCellN
  by_cases hy : y < height
  · rw [row_buildGrid f y hy]
    by_cases hx : x < width
    · rw [getD_in false (by simpa using hx)]
      simp [hy, hx]
    · rw [getD_out false (by simpa using Nat.le_of_not_lt hx)]
      simp [hx]
  · rw [getD_out [] (by simpa [buildGrid] using Nat.le_of_not_lt hy)]
    simp [hy]

theorem wellFormed_buildGrid (f : Nat → Nat → Bool) : wellFormed (buildGrid f) = true := by
  rw [wellFormed_iff]
  refine ⟨length_buildGrid f, ?_⟩
  intro row hrow
  simp only [buildGrid, List.mem_map] at hrow
  obtain ⟨y, _, rfl⟩ := hrow
  simp

/-! ### Pattern grids: reduction to anchor-relative coordinates -/

theorem neighborOffsets_small :
    ∀ d ∈ neighborOffsets, -1 ≤ d.1 ∧ d.1 ≤ 1 ∧ -1 ≤ d.2 ∧ d.2 ≤ 1 := by decide

theorem patternMem_eq_relMem (P : List (Nat × Nat)) (r c y x : Nat) :
    patternMem P r c y x = relMem P ((y : Int) - r) ((x : Int) - c) := by
  rw [Bool.eq_iff_iff]
  simp only [patternMem, relMem, List.any_eq_true, Bool.and_eq_true, beq_iff_eq]
  constructor
  · rintro ⟨p, hp, h1, h2⟩
    exact ⟨p, hp, by omega, by omega⟩
  · rintro ⟨p, hp, h1, h2⟩
    exact ⟨p, hp, by omega, by omega⟩

theorem relMem_out {P : List (Nat × Nat)} {M : Nat} {a b : Int}
    (HP : ∀ p ∈ P, p.1 ≤ M ∧ p.2 ≤ M)
    (h : a < 0 ∨ (M : Int) < a ∨ b < 0 ∨ (M : Int) < b) : relMem P a b = false := by
  cases hm : relMem P a b with
  | false => rfl
  | true =>
    exfalso
    unfold relMem at hm
    rw [List.any_eq_true] at hm
    obtain ⟨p, hp, hpe⟩ := hm
    rw [Bool.and_eq_true, beq_iff_eq, beq_iff_eq] at hpe
    have := HP p hp
    omega

theorem pmem_term_eq {P : List (Nat × Nat)} {M : Nat} (r c : Nat)
    (HP : ∀ p ∈ P, p.1 ≤ M ∧ p.2 ≤ M)
    (hr : r + M < height) (hc : c + M < width) (iy ix : Int) :
    (if inBounds iy ix then (if getCellI (patternGrid P r c) iy ix then 1 else 0) else 0) =
      (if relMem P (iy - r) (ix - c) then 1 else 0) := by
  by_cases hb : inBounds iy ix = true
  · have hbp : 0 ≤ iy ∧ iy < (height : Int) ∧ 0 ≤ ix ∧ ix < (width : Int) := by
      simpa [inBounds] using hb
    have hyy : iy.toNat < height := by omega
    have hxx : ix.toNat < width := by omega
    have hcell : getCellI (patternGrid P r c) iy ix = relMem P (iy - r) (ix - c) := by
      show getCellN (patternGrid P r c) iy.toNat ix.toNat = _
      unfold patternGrid
      rw [getCell_buildGrid]
      rw [if_pos ⟨hyy, hxx⟩]
      rw [patternMem_eq_relMem]
      have e1 : ((iy.toNat : Nat) : Int) = iy := by omega
      have e2 : ((ix.toNat : Nat) : Int) = ix := by omega
      rw [e1, e2]
    rw [hb, hcell]
    simp
  · have hbp : ¬(0 ≤ iy ∧ iy < (height : Int) ∧ 0 ≤ ix ∧ ix < (width : Int)) := by
      simpa [inBounds] using hb
    have hout : iy - r < 0 ∨ (M : Int) < iy - r ∨ ix - c < 0 ∨ (M : Int) < ix - c := by
      omega
    rw [relMem_out HP hout]
    simp [hb]

theorem count_patternGrid {P : List (Nat × Nat)} {M : Nat} (r c : Nat)
    (HP : ∀ p ∈ P, p.1 ≤ M ∧ p.2 ≤ M)
    (hr : r + M < height) (hc : c + M < width) (y x : Nat) :
    countLiveNeighbors (patternGrid P r c) y x =
      relCount P ((y : Int) - r) ((x : Int) - c) := by
  unfold countLiveNeighbors relCount
  apply foldl_congr_mem
  intro acc d _
  have hsplit :
      (if inBounds ((y : Int) + d.1) ((x : Int) + d.2) then
        acc + (if getCellI (patternGrid P r c) ((y : Int) + d.1) ((x : Int) + d.2) then 1 else 0)
      else acc) =
      acc + (if inBounds ((y : Int) + d.1) ((x : Int) + d.2) then
        (if getCellI (patternGrid P r c) ((y : Int) + d.1) ((x : Int) + d.2) then 1 else 0)
      else 0) := by
    by_cases hb : inBounds ((y : Int) + d.1) ((x : Int) + d.2) = true <;> simp [hb]
  rw [hsplit, pmem_term_eq r c HP hr hc]
  have e1 : (y : Int) + d.1 - r = ((y : Int) - r) + d.1 := by ring
  have e2 : (x : Int) + d.2 - c = ((x : Int) - c) + d.2 := by ring
  rw [e1, e2]

theorem cell_rule_pattern {P Q : List (Nat × Nat)} {M : Nat} (r c : Nat)
    (HP : ∀ p ∈ P, p.1 ≤ M ∧ p.2 ≤ M) (HQ : ∀ p ∈ Q, p.1 ≤ M ∧ p.2 ≤ M)
    (hr : r + M < height) (hc : c + M < width)
    (hrule : ruleOK P Q M = true) (y x : Nat) :
    stepCell (patternGrid P r c) y x (patternMem P r c y x) = patternMem Q r c y x := by
  rw [patternMem_eq_relMem P r c y x, patternMem_eq_relMem Q r c y x]
  simp only [stepCell]
  rw [count_patternGrid r c HP hr hc]
  by_cases hwin : -1 ≤ (y : Int) - r ∧ (y : Int) - r ≤ (M : Int) + 1 ∧
      -1 ≤ (x : Int) - c ∧ (x : Int) - c ≤ (M : Int) + 1
  · obtain ⟨h1, h2, h3, h4⟩ := hwin
    have hu : ((y : Int) - r + 1).toNat < M + 3 := by omega
    have hv : ((x : Int) - c + 1).toNat < M + 3 := by omega
    have H1 := List.all_eq_true.mp hrule (((y : Int) - r + 1).toNat) (List.mem_range.mpr hu)
    have H2 := List.all_eq_true.mp H1 (((x : Int) - c + 1).toNat) (List.mem_range.mpr hv)
    rw [beq_iff_eq] at H2
    have ea : ((((y : Int) - r + 1).toNat : Nat) : Int) - 1 = (y : Int) - r := by omega
    have eb : ((((x : Int) - c + 1).toNat : Nat) : Int) - 1 = (x : Int) - c := by omega
    rw [ea, eb] at H2
    exact H2
  · have houtP : relMem P ((y : Int) - r) ((x : Int) - c) = false :=
      relMem_out HP (by omega)
    have houtQ : relMem Q ((y : Int) - r) ((x : Int) - c) = false :=
      relMem_out HQ (by omega)
    have hcount : relCount P ((y : Int) - r) ((x : Int) - c) = 0 := by
      unfold relCount
      apply foldl_add_ind_zero
      intro d hd
      have := neighborOffsets_small d hd
      exact relMem_out HP (by omega)
    rw [houtP, houtQ, hcount]
    simp

theorem pattern_step (P Q : List (Nat × Nat)) (M : Nat) (r c : Nat)
    (HP : ∀ p ∈ P, p.1 ≤ M ∧ p.2 ≤ M) (HQ : ∀ p ∈ Q, p.1 ≤ M ∧ p.2 ≤ M)
    (hr : r + M < height) (hc : c + M < width)
    (hrule : ruleOK P Q M = true) :
    computeNextGeneration (patternGrid P r c) = patternGrid Q r c := by
  have hlenP : (patternGrid P r c).length = height := length_buildGrid _
  apply grid_ext
  · rw [length_computeNext, hlenP]
    exact (length_buildGrid _).symm
  · intro y hy
    rw [length_computeNext, hlenP] at hy
    rw [rowlen_computeNext _ y (by rw [hlenP]; exact hy)]
    unfold patternGrid
    rw [rowlen_buildGrid _ y hy, rowlen_buildGrid _ y hy]
  · intro y x hy hx
    rw [length_computeNext, hlenP] at hy
    rw [rowlen_computeNext _ y (by rw [hlenP]; exact hy)] at hx
    unfold patternGrid at hx
    rw [rowlen_buildGrid _ y hy] at hx
    rw [getCell_step _ y x (by rw [hlenP]; exact hy)
      (by unfold patternGrid; rw [rowlen_buildGrid _ y hy]; exact hx)]
    have hcellP : getCellN (patternGrid P r c) y x = patternMem P r c y x := by
      unfold patternGrid
      rw [getCell_buildGrid]
      exact if_pos ⟨hy, hx⟩
    have hcellQ : getCellN (patternGrid Q r c) y x = patternMem Q r c y x := by
      unfold patternGrid
      rw [getCell_buildGrid]
      exact if_pos ⟨hy, hx⟩
    rw [hcellP, hcellQ]
    exact cell_rule_pattern r c HP HQ hr hc hrule y x

/-! ### Lemmas about all-dead grids -/

theorem allDead_getCellN (g : Grid) (h : allDead g = true) (y x : Nat) :
    getCellN g y x = false := by
  unfold allDead at h
  rw [List.all_eq_true] at h
  unfold getCellN
  by_cases hy : y < g.length
  · rw [getD_in [] hy]
    have hrow := h _ (List.get_mem g y hy)
    rw [List.all_eq_true] at hrow
    by_cases hx : x < (g.get ⟨y, hy⟩).length
    · rw [getD_in false hx]
      simpa using hrow _ (List.get_mem _ x hx)
    · rw [getD_out false (Nat.le_of_not_lt hx)]
  · rw [getD_out [] (Nat.le_of_not_lt hy)]
    simp

theorem allDead_getCellI (g : Grid) (h : allDead g = true) (y x : Int) :
    getCellI g y x = false :=
  allDead_getCellN g h y.toNat x.toNat

theorem mooreLiveCount_allDead (g : Grid) (h : allDead g = true) (y x : Nat) :
    mooreLiveCount g y x = 0 := by
  unfold mooreLiveCount
  rw [List.countP_eq_zero]
  intro d _
  simp [allDead_getCellI g h]

/-- Any cell-wise transformation of a grid, applied through the nested
index-aware maps of the source, preserves well-formedness. -/
theorem wellFormed_nested_mapIdx (g : Grid) (F : Nat → Nat → Bool → Bool)
    (h : wellFormed g = true) :
    wellFormed (mapIdx (fun y row => mapIdx (fun x cell => F y x cell) row) g) = true := by
  obtain ⟨hl, hrows⟩ := (wellFormed_iff g).mp h
  rw [wellFormed_iff]
  constructor
  · simpa [mapIdx, length_mapIdxFrom] using hl
  · intro row hrow
    simp only [mapIdx] at hrow
    obtain ⟨j, a, ha, rfl⟩ := mem_mapIdxFrom hrow
    simpa [length_mapIdxFrom] using hrows a ha

/-! ### The intended seed operation: bounds discipline and pattern placement -/

theorem getD_set (a d : α) : ∀ (l : List α) (n i : Nat),
    (l.set n a).getD i d = if n = i ∧ n < l.length then a else l.getD i d
  | [], n, i => by simp
  | x :: xs, 0, 0 => by simp
  | x :: xs, 0, i + 1 => by simp
  | x :: xs, n + 1, 0 => by simp
  | x :: xs, n + 1, i + 1 => by
    show (xs.set n a).getD i d = _
    rw [getD_set a d xs n i]
    by_cases hcond : n = i ∧ n < xs.length
    · rw [if_pos hcond, if_pos (by simp only [List.length_cons]; omega)]
    · rw [if_neg hcond, if_neg (by simp only [List.length_cons]; omega)]
      simp

theorem wellFormed_rowlen {g : Grid} (h : wellFormed g = true) {y : Nat} (hy : y < height) :
    (g.getD y []).length = width := by
  obtain ⟨hl, hrows⟩ := (wellFormed_iff g).mp h
  have hy' : y < g.length := by omega
  rw [getD_in [] hy']
  exact hrows _ (List.get_mem g y hy')

theorem wellFormed_oob_false {g : Grid} (h : wellFormed g = true) {y x : Nat}
    (hout : height ≤ y ∨ width ≤ x) : getCellN g y x = false := by
  obtain ⟨hl, hrows⟩ := (wellFormed_iff g).mp h
  unfold getCellN
  by_cases hy : y < g.length
  · have hrl : (g.getD y []).length = width := by
      rw [getD_in [] hy]
      exact hrows _ (List.get_mem g y hy)
    rw [getD_out false (by omega)]
  · rw [getD_out [] (Nat.le_of_not_lt hy)]
    simp

theorem getCell_setCell_mono {g : Grid} {y' x' : Nat} (y x : Nat)
    (h : getCellN g y' x' = true) : getCellN (setCell g y x) y' x' = true := by
  unfold setCell getCellN
  rw [getD_set]
  by_cases h1 : y = y' ∧ y < g.length
  · obtain ⟨rfl, _⟩ := h1
    rw [if_pos (by tauto)]
    rw [getD_set]
    by_cases h2 : x = x' ∧ x < (g.getD y []).length
    · rw [if_pos h2]
    · rw [if_neg h2]
      exact h
  · rw [if_neg h1]
    exact h

theorem getCell_setCell_self {g : Grid} {y x : Nat}
    (hy : y < g.length) (hx : x < (g.getD y []).length) :
    getCellN (setCell g y x) y x = true := by
  unfold setCell getCellN
  rw [getD_set, if_pos ⟨rfl, hy⟩, getD_set, if_pos ⟨rfl, hx⟩]

theorem wellFormed_setCell {g : Grid} (y x : Nat) (h : wellFormed g = true) :
    wellFormed (setCell g y x) = true := by
  by_cases hy : y < g.length
  · obtain ⟨hl, hrows⟩ := (wellFormed_iff g).mp h
    rw [wellFormed_iff]
    constructor
    · unfold setCell
      rw [List.length_set]
      exact hl
    · intro row hrow
      rcases List.mem_or_eq_of_mem_set hrow with hmem | heq
      · exact hrows row hmem
      · rw [heq, List.length_set, getD_in [] hy]
        exact hrows _ (List.get_mem g y hy)
  · unfold setCell
    rw [List.set_eq_of_length_le (Nat.le_of_not_lt hy)]
    exact h

theorem getCell_placeCoord_mono {rows : Grid} {y' x' : Nat} (c : Int × Int)
    (h : getCellN rows y' x' = true) : getCellN (placeCoord rows c) y' x' = true := by
  unfold placeCoord
  by_cases hb : inBoundsXY c = true
  · rw [if_pos hb]
    exact getCell_setCell_mono _ _ h
  · rw [if_neg hb]
    exact h

theorem wellFormed_placeCoord {rows : Grid} (c : Int × Int) (h : wellFormed rows = true) :
    wellFormed (placeCoord rows c) = true := by
  unfold placeCoord
  by_cases hb : inBoundsXY c = true
  · rw [if_pos hb]
    exact wellFormed_setCell _ _ h
  · rw [if_neg hb]
    exact h

theorem getCell_placeCoord_self {rows : Grid} (c : Int × Int)
    (hw : wellFormed rows = true) (hb : inBoundsXY c = true) :
    getCellN (placeCoord rows c) c.2.toNat c.1.toNat = true := by
  have hbp : 0 ≤ c.1 ∧ c.1 < (width : Int) ∧ 0 ≤ c.2 ∧ c.2 < (height : Int) := by
    simpa [inBoundsXY] using hb
  obtain ⟨hl, _⟩ := (wellFormed_iff rows).mp hw
  have hy : c.2.toNat < rows.length := by omega
  have hx : c.1.toNat < (rows.getD c.2.toNat []).length := by
    rw [wellFormed_rowlen hw (by omega)]
    omega
  unfold placeCoord
  rw [if_pos hb]
  exact getCell_setCell_self hy hx

theorem wellFormed_placePattern {pat : List (Int × Int)} :
    ∀ {rows : Grid}, wellFormed rows = true → wellFormed (placePattern rows pat) = true := by
  induction pat with
  | nil => intro rows h; exact h
  | cons c cs ih =>
    intro rows h
    exact ih (wellFormed_placeCoord c h)

theorem getCell_placePattern_mono {pat : List (Int × Int)} :
    ∀ {rows : Grid} {y x : Nat}, getCellN rows y x = true →
      getCellN (placePattern rows pat) y x = true := by
  induction pat with
  | nil => intro rows y x h; exact h
  | cons c cs ih =>
    intro rows y x h
    exact ih (getCell_placeCoord_mono c h)

theorem getCell_placePattern_sets {pat : List (Int × Int)} :
    ∀ {rows : Grid}, wellFormed rows = true →
      ∀ c ∈ pat, inBoundsXY c = true →
        getCellN (placePattern rows pat) c.2.toNat c.1.toNat = true := by
  induction pat with
  | nil => intro rows _ c hc; simp at hc
  | cons c0 cs ih =>
    intro rows hw c hc hb
    rcases List.mem_cons.mp hc with rfl | hmem
    · show getCellN (placePattern (placeCoord rows c) cs) c.2.toNat c.1.toNat = true
      exact getCell_placePattern_mono (getCell_placeCoord_self c hw hb)
    · show getCellN (placePattern (placeCoord rows c0) cs) c.2.toNat c.1.toNat = true
      exact ih (wellFormed_placeCoord c0 hw) c hmem hb

theorem foldl_filter_id {f : β → α → β} {p : α → Bool}
    (hid : ∀ b a, p a = false → f b a = b) :
    ∀ (l : List α) (b : β), l.foldl f b = (l.filter p).foldl f b
  | [], _ => rfl
  | a :: l, b => by
    rw [List.filter_cons]
    by_cases hp : p a = true
    · rw [if_pos hp]
      exact foldl_filter_id hid l (f b a)
    · rw [if_neg hp]
      rw [List.foldl_cons, hid b a (Bool.eq_false_iff.mpr hp)]
      exact foldl_filter_id hid l b

/-- The intended seed keeps every grid well formed: it only ever writes
inside the 40×60 grid, so no cell outside `[0,width) × [0,height)` exists or
is ever marked live. -/
theorem seed_wellFormed (randCoords : List (Int × Int)) :
    wellFormed (createInitialGrid randCoords) = true := by
  unfold createInitialGrid literalPatterns
  simp only [List.cons_append, List.nil_append, List.foldl_cons, List.foldl_nil]
  exact wellFormed_placePattern (wellFormed_placePattern (wellFormed_placePattern (by decide)))

/-- Out-of-bounds coordinates are silently discarded by the intended seed:
filtering them away first yields the same grid. -/
theorem seed_discards_oob (randCoords : List (Int × Int)) :
    createInitialGrid randCoords = createInitialGrid (randCoords.filter inBoundsXY) := by
  unfold createInitialGrid literalPatterns
  simp only [List.cons_append, List.nil_append, List.foldl_cons, List.foldl_nil]
  unfold placePattern
  apply foldl_filter_id
  intro rows c hc
  unfold placeCoord
  rw [if_neg (by simp [hc])]

/-- Every in-bounds literal pattern coordinate is live in the intended
seed result, whatever the random coordinates are. -/
theorem seed_literals (randCoords : List (Int × Int)) :
    ∀ c ∈ literalPatterns.flatten, inBoundsXY c = true →
      getCellN (createInitialGrid randCoords) c.2.toNat c.1.toNat = true := by
  intro c hc hb
  unfold createInitialGrid literalPatterns
  simp only [List.cons_append, List.nil_append, List.foldl_cons, List.foldl_nil]
  have hw0 : wellFormed emptyGrid = true := by decide
  simp only [literalPatterns, List.flatten_cons, List.flatten_nil, List.append_nil,
    List.mem_append] at hc
  rcases hc with hmem | hmem
  · apply getCell_placePattern_mono
    apply getCell_placePattern_mono
    exact getCell_placePattern_sets hw0 c hmem hb
  · apply getCell_placePattern_mono
    exact getCell_placePattern_sets (wellFormed_placePattern hw0) c hmem hb

/-- The intended reset operation: generation zeroed, run stopped, grid
freshly seeded. -/
theorem reset_intended (randCoords : List (Int × Int)) (s : EngineState) :
    (resetSimulation randCoords s).generation = 0 ∧
      (resetSimulation randCoords s).isRunning = false ∧
      (resetSimulation randCoords s).grid = createInitialGrid randCoords :=
  ⟨rfl, rfl, rfl⟩

/-! ### The claims -/

/-- Claim C1: for every grid cell, the step operation applies the stated
rule: an alive cell survives iff its in-bounds Moore live-neighbor count is
2 or 3, and a dead cell becomes alive iff that count is exactly 3
(out-of-bounds neighbors contribute zero to the count, by the definition of
`mooreLiveCount`). -/
theorem step_cell_rule (g : Grid) (y x : Nat)
    (hy : y < g.length) (hx : x < (g.getD y []).length) :
    getCellN (computeNextGeneration g) y x =
      if getCellN g y x then
        decide (mooreLiveCount g y x = 2 ∨ mooreLiveCount g y x = 3)
      else decide (mooreLiveCount g y x = 3) := by
  rw [getCell_step g y x hy hx]
  simp only [stepCell]
  rw [countLiveNeighbors_eq_moore]
  cases hcell : getCellN g y x with
  | false =>
    by_cases h3 : mooreLiveCount g y x = 3 <;> simp [h3]
  | true =>
    by_cases h2 : mooreLiveCount g y x = 2 <;> by_cases h3 : mooreLiveCount g y x = 3 <;>
      simp [h2, h3]

/-- Witness for C1 at the all-dead grid and cell (0, 0). -/
theorem step_cell_rule_witness :
    (0 < emptyGrid.length ∧ 0 < (emptyGrid.getD 0 []).length) ∧
      getCellN (computeNextGeneration emptyGrid) 0 0 =
        (if getCellN emptyGrid 0 0 then
          decide (mooreLiveCount emptyGrid 0 0 = 2 ∨ mooreLiveCount emptyGrid 0 0 = 3)
        else decide (mooreLiveCount emptyGrid 0 0 = 3)) :=
  ⟨⟨by decide, by decide⟩, step_cell_rule emptyGrid 0 0 (by decide) (by decide)⟩

/-- Claim C2: the step operation is deterministic: its output is fully
determined by the cell contents of the input grid, so in particular two
applications to the same input grid produce the same output grid. -/
theorem step_deterministic (g₁ g₂ : Grid)
    (h₁ : wellFormed g₁ = true) (h₂ : wellFormed g₂ = true)
    (hcells : ∀ y x, getCellN g₁ y x = getCellN g₂ y x) :
    computeNextGeneration g₁ = computeNextGeneration g₂ := by
  have hg : g₁ = g₂ := by
    obtain ⟨hl1, hr1⟩ := (wellFormed_iff g₁).mp h₁
    obtain ⟨hl2, hr2⟩ := (wellFormed_iff g₂).mp h₂
    apply grid_ext
    · rw [hl1, hl2]
    · intro y hy
      have hy2 : y < g₂.length := by omega
      rw [getD_in [] hy, getD_in [] hy2]
      rw [hr1 _ (List.get_mem g₁ y hy), hr2 _ (List.get_mem g₂ y hy2)]
    · intro y x _ _
      exact hcells y x
  rw [hg]

/-- Witness for C2 at the all-dead grid. -/
theorem step_deterministic_witness :
    (wellFormed emptyGrid = true ∧ wellFormed emptyGrid = true) ∧
      computeNextGeneration emptyGrid = computeNextGeneration emptyGrid :=
  ⟨⟨by decide, by decide⟩,
    step_deterministic emptyGrid emptyGrid (by decide) (by decide) (fun _ _ => rfl)⟩

/-- Claim C3: grid dimensions are invariant: on every well-formed 40×60
grid, both the step operation and the mutate operation return a grid with
the same height and the same row widths. -/
theorem dims_invariant (g : Grid) (rand : Nat → Nat → ℚ) (h : wellFormed g = true) :
    wellFormed (computeNextGeneration g) = true ∧ wellFormed (mutateGrid rand g) = true :=
  ⟨wellFormed_nested_mapIdx g (fun y x cell => stepCell g y x cell) h,
    wellFormed_nested_mapIdx g
      (fun y x cell => if rand y x < (1 : ℚ) / 10 then !cell else cell) h⟩

/-- Witness for C3 at the all-dead grid with a constant random oracle. -/
theorem dims_invariant_witness :
    wellFormed emptyGrid = true ∧
      (wellFormed (computeNextGeneration emptyGrid) = true ∧
        wellFormed (mutateGrid (fun _ _ => 0) emptyGrid) = true) :=
  ⟨by decide, dims_invariant emptyGrid (fun _ _ => 0) (by decide)⟩

/-- Claim C4: the step operation maps an all-dead grid to an all-dead grid. -/
theorem allDead_step (g : Grid) (h : allDead g = true) :
    allDead (computeNextGeneration g) = true := by
  unfold computeNextGeneration
  unfold allDead
  rw [List.all_eq_true]
  intro row hrow
  simp only [mapIdx] at hrow
  obtain ⟨j, a, ha, rfl⟩ := mem_mapIdxFrom hrow
  rw [List.all_eq_true]
  intro cell hcell
  obtain ⟨k, b, hb, rfl⟩ := mem_mapIdxFrom hcell
  have hbf : b = false := by
    unfold allDead at h
    rw [List.all_eq_true] at h
    have hrow' := h a ha
    rw [List.all_eq_true] at hrow'
    simpa using hrow' b hb
  rw [hbf]
  simp [stepCell, countLiveNeighbors_eq_moore, mooreLiveCount_allDead g h]

/-- Witness for C4 at the all-dead grid. -/
theorem allDead_step_witness :
    allDead emptyGrid = true ∧ allDead (computeNextGeneration emptyGrid) = true :=
  ⟨by decide, allDead_step emptyGrid (by decide)⟩

/-- Claim C5: a grid whose only live cells form a 2×2 block of adjacent
cells is a still life: the step operation returns the same grid, for every
placement of the block that fits on the 40×60 grid. -/
theorem block_still_life (r c : Nat) (hr : r + 1 < height) (hc : c + 1 < width) :
    computeNextGeneration (patternGrid blockPattern r c) = patternGrid blockPattern r c :=
  pattern_step blockPattern blockPattern 1 r c (by decide) (by decide) hr hc (by decide)

/-- Witness for C5 at the block placement of the seed, anchor (25, 1). -/
theorem block_still_life_witness :
    (25 + 1 < height ∧ 1 + 1 < width) ∧
      computeNextGeneration (patternGrid blockPattern 25 1) = patternGrid blockPattern 25 1 :=
  ⟨⟨by decide, by decide⟩, block_still_life 25 1 (by decide) (by decide)⟩

/-- Claim C6: a grid whose only live cells form the 5-cell glider pattern,
placed away from the boundary, returns to the same pattern translated one
cell diagonally (one row down, one column right) after 4 steps. -/
theorem glider_translates (r c : Nat) (hr : r + 3 < height) (hc : c + 3 < width) :
    computeNextGeneration (computeNextGeneration (computeNextGeneration
        (computeNextGeneration (patternGrid gliderPattern r c)))) =
      patternGrid (gliderPattern.map (fun p => (p.1 + 1, p.2 + 1))) r c := by
  have hshift : gliderPattern.map (fun p => (p.1 + 1, p.2 + 1)) = gliderPhase4 := by decide
  rw [hshift]
  rw [pattern_step gliderPattern gliderPhase1 3 r c (by decide) (by decide) hr hc (by decide)]
  rw [pattern_step gliderPhase1 gliderPhase2 3 r c (by decide) (by decide) hr hc (by decide)]
  rw [pattern_step gliderPhase2 gliderPhase3 3 r c (by decide) (by decide) hr hc (by decide)]
  rw [pattern_step gliderPhase3 gliderPhase4 3 r c (by decide) (by decide) hr hc (by decide)]

/-- Witness for C6 at the glider placement of the seed, anchor (9, 10). -/
theorem glider_translates_witness :
    (9 + 3 < height ∧ 10 + 3 < width) ∧
      computeNextGeneration (computeNextGeneration (computeNextGeneration
          (computeNextGeneration (patternGrid gliderPattern 9 10)))) =
        patternGrid (gliderPattern.map (fun p => (p.1 + 1, p.2 + 1))) 9 10 :=
  ⟨⟨by decide, by decide⟩, glider_translates 9 10 (by decide) (by decide)⟩

/-- Claim C7: the mutate operation, parameterized by the per-cell flip
probability, is the identity at probability 0 and the cell-wise inversion at
probability 1, for every random draw function with values in [0, 1). -/
theorem mutate_extremes (g : Grid) (rand : Nat → Nat → ℚ)
    (h : ∀ y x, 0 ≤ rand y x ∧ rand y x < 1) :
    mutateGridP 0 rand g = g ∧ mutateGridP 1 rand g = invertGrid g := by
  constructor
  · show mapIdxFrom
        (fun y row => mapIdx (fun x cell => if rand y x < 0 then !cell else cell) row) 0 g = g
    have houter : ∀ (y : Nat) (row : List Bool),
        mapIdx (fun x cell => if rand y x < 0 then !cell else cell) row = row := by
      intro y row
      have hcong : ∀ (x : Nat) (cell : Bool),
          (if rand y x < 0 then !cell else cell) = cell := by
        intro x cell
        exact if_neg (not_lt.mpr (h y x).1)
      unfold mapIdx
      rw [mapIdxFrom_congr hcong 0 row, mapIdxFrom_id]
    rw [mapIdxFrom_congr houter 0 g, mapIdxFrom_id]
  · show mapIdxFrom
        (fun y row => mapIdx (fun x cell => if rand y x < 1 then !cell else cell) row) 0 g =
      invertGrid g
    have houter : ∀ (y : Nat) (row : List Bool),
        mapIdx (fun x cell => if rand y x < 1 then !cell else cell) row =
          row.map (fun cell => !cell) := by
      intro y row
      have hcong : ∀ (x : Nat) (cell : Bool),
          (if rand y x < 1 then !cell else cell) = !cell := by
        intro x cell
        exact if_pos (h y x).2
      unfold mapIdx
      rw [mapIdxFrom_congr hcong 0 row, mapIdxFrom_constmap]
    rw [mapIdxFrom_congr houter 0 g, mapIdxFrom_constmap]
    rfl

/-- Witness for C7 at a small concrete grid and the constant-zero draw. -/
theorem mutate_extremes_witness :
    (∀ _ _ : Nat, (0 : ℚ) ≤ 0 ∧ (0 : ℚ) < 1) ∧
      mutateGridP 0 (fun _ _ => (0 : ℚ)) [[true, false]] = [[true, false]] ∧
      mutateGridP 1 (fun _ _ => (0 : ℚ)) [[true, false]] = invertGrid [[true, false]] := by
  have h : ∀ _ _ : Nat, (0 : ℚ) ≤ 0 ∧ (0 : ℚ) < 1 := fun _ _ => ⟨le_refl 0, by decide⟩
  exact ⟨h, mutate_extremes [[true, false]] (fun _ _ => 0) h⟩

/-- Claim C8 (code bug): the reset handler stops the run and zeroes the
generation counter, but the seed call it then makes throws a TypeError, so
the grid keeps its previous value instead of being freshly seeded. -/
theorem resetJS_fails :
    (resetSimulationJS [(37, 12)] ⟨[[true]], 5, true⟩).1.isRunning = false ∧
      (resetSimulationJS [(37, 12)] ⟨[[true]], 5, true⟩).1.generation = 0 ∧
      (resetSimulationJS [(37, 12)] ⟨[[true]], 5, true⟩).1.grid = [[true]] ∧
      (resetSimulationJS [(37, 12)] ⟨[[true]], 5, true⟩).2 =
        some "TypeError: number is not iterable" :=
  ⟨rfl, rfl, rfl, rfl⟩

/-- Claim C9 (code bug): the seed operation never returns a grid: because the
random coordinate pairs are spread as individual top-level patterns, the
inner destructuring callback receives a plain number as soon as the first
random coordinate is processed and throws a TypeError, for every nonempty
list of random coordinates. -/
theorem seedJS_crashes (c0 : Int × Int) (rest : List (Int × Int)) :
    createInitialGridJS (c0 :: rest) =
      Except.error "TypeError: number is not iterable" :=
  rfl

/-- Claim C10: the dynamic tick interval recomputed after a step lies
between 50 and 200 milliseconds inclusive, for every grid. -/
theorem newSpeed_bounds (g : Grid) : 50 ≤ newSpeed g ∧ newSpeed g ≤ 200 := by
  unfold newSpeed
  constructor
  · exact le_max_left _ _
  · apply max_le
    · norm_num
    · have h0 : (0 : ℚ) ≤ (aliveCells g : ℚ) / ((width : ℚ) * (height : ℚ)) * 150 := by
        positivity
      linarith

end GoL
